import Mathlib

/-!
Shallow embedding of the student budget tracker web application
(source: src/app.py) and verification of its specification claims.

Modelling conventions:
* The database is a list of `Expense` rows (src/app.py lines 33-40);
  primary-key lookup is `List.find?` on the `id` field.
* Machine floats (`db.Float`, Python `float`) are modelled by `PyFloat`:
  an exact rational for finite values plus `inf`, `negInf` and `nan`.
  IEEE-754 rounding of arithmetic and of decimal-to-binary conversion is
  abstracted to exact rational arithmetic; no claim in scope depends on
  rounding of binary floats, only on which strings are accepted, on
  aggregation structure and on output shape.
* Each request handler is a pure function from the database state and the
  request data to the new state and a `Response` (redirect target plus
  flash message, matching the `flash`/`redirect` calls in the source).
  SQLAlchemy ORM attribute assignments become persistent only at
  `db.session.commit()`; a handler path that redirects without committing
  leaves the stored state unchanged (the session is discarded at request
  teardown), so such paths return the input state.
-/

namespace BudgetApp

/-! ### Digits and numerals -/

def digitVal (c : Char) : Nat := c.toNat - '0'.toNat

def digitsToNat (l : List Char) : Nat :=
  l.foldl (fun acc c => 10 * acc + digitVal c) 0

/-- Fuel-driven digit expansion (structural recursion so that concrete
values reduce). -/
def natDigitsF : Nat → Nat → List Char
  | 0, _ => []
  | fuel + 1, n =>
    if n < 10 then [Nat.digitChar n]
    else natDigitsF fuel (n / 10) ++ [Nat.digitChar (n % 10)]

/-- Decimal digit characters of a natural number, most significant first. -/
def natDigits (n : Nat) : List Char := natDigitsF (n + 1) n

def natStr (n : Nat) : String := String.mk (natDigits n)

/-! ### Rational arithmetic

Arithmetic on `ℚ` through `mkRat` and the `num`/`den` projections, so
that every operation normalizes its result and reduces inside the
kernel (the library operations on `Rat` are deliberately opaque). -/

def ratOfInt (n : Int) : ℚ := mkRat n 1

def ratAdd (a b : ℚ) : ℚ :=
  mkRat (a.num * (b.den : Int) + b.num * (a.den : Int)) (a.den * b.den)

def ratMul (a b : ℚ) : ℚ := mkRat (a.num * b.num) (a.den * b.den)

def ratNeg (a : ℚ) : ℚ := mkRat (- a.num) a.den

def ratSub (a b : ℚ) : ℚ := ratAdd a (ratNeg b)

def ratAbs (a : ℚ) : ℚ := mkRat (Int.ofNat a.num.natAbs) a.den

/-- Floor of a rational (the denominator is always positive). -/
def ratFloor (a : ℚ) : Int := Int.fdiv a.num (a.den : Int)

def ratLt (a b : ℚ) : Prop := a.num * (b.den : Int) < b.num * (a.den : Int)

instance (a b : ℚ) : Decidable (ratLt a b) := by unfold ratLt; infer_instance

/-! ### Python float model -/

/-- Model of a Python `float` value: exact rational for finite values,
plus the special values produced by `float("inf")` etc. -/
inductive PyFloat where
  | finite (q : ℚ)
  | inf
  | negInf
  | nan
deriving DecidableEq, Repr

/-- IEEE-style addition on `PyFloat` (rounding abstracted to exact
rational arithmetic). Models Python / SQL `SUM` addition of floats. -/
def pyAdd : PyFloat → PyFloat → PyFloat
  | .finite a, .finite b => .finite (ratAdd a b)
  | .nan, _ => .nan
  | _, .nan => .nan
  | .inf, .negInf => .nan
  | .negInf, .inf => .nan
  | .inf, _ => .inf
  | _, .inf => .inf
  | .negInf, _ => .negInf
  | _, .negInf => .negInf

/-- ASCII whitespace stripped by Python `float()` and `str.strip()`. -/
def isPySpace (c : Char) : Bool :=
  c == ' ' || c == '\t' || c == '\n' || c == '\r' || c == '\x0b' || c == '\x0c'

def stripChars (l : List Char) : List Char :=
  ((l.dropWhile isPySpace).reverse.dropWhile isPySpace).reverse

/-- Model of Python `str.strip()` (ASCII whitespace). -/
def pyStrip (s : String) : String := String.mk (stripChars s.toList)

/-- Ten to an integer power, as an exact rational. -/
def pow10 (e : Int) : ℚ :=
  if 0 ≤ e then mkRat (10 ^ e.toNat) 1 else mkRat 1 (10 ^ (- e).toNat)

/-- Value of a parsed decimal literal: sign, integral digits, fractional
digits and decimal exponent. -/
def decValue (sign : Int) (intD fracD : List Char) (ex : Int) : ℚ :=
  ratMul (ratOfInt sign)
    (ratMul (ratOfInt (digitsToNat (intD ++ fracD))) (pow10 (ex - (fracD.length : Int))))

/-- Decimal part of the Python `float()` grammar:
`digits [. digits] [(e|E) [sign] digits]`, at least one mantissa digit,
nothing left over. Digit-group underscores are not modelled. -/
def parseDecimal (sign : Int) (cs : List Char) : Option PyFloat :=
  let p1 := cs.span Char.isDigit
  let fr : List Char × List Char :=
    match p1.2 with
    | '.' :: t => t.span Char.isDigit
    | r => ([], r)
  if p1.1.isEmpty && fr.1.isEmpty then none
  else
    match fr.2 with
    | [] => some (.finite (decValue sign p1.1 fr.1 0))
    | e :: t =>
      if e == 'e' || e == 'E' then
        let se : Int × List Char :=
          match t with
          | '+' :: u => (1, u)
          | '-' :: u => (-1, u)
          | u => (1, u)
        let pe := se.2.span Char.isDigit
        if pe.1.isEmpty || !pe.2.isEmpty then none
        else some (.finite (decValue sign p1.1 fr.1 (se.1 * (digitsToNat pe.1 : Int))))
      else none

/-- Model of the CPython `float(string)` conversion used at
src/app.py lines 123 and 151: strip whitespace, optional sign, then the
case-insensitive special words `inf`, `infinity`, `nan` or a decimal
literal. Abstractions: underscore digit separators are not modelled and
finite literals keep their exact rational value (no overflow to `inf`,
no rounding to binary64). Note that non-finite values are accepted. -/
def parseFloat (s : String) : Option PyFloat :=
  let cs := stripChars s.toList
  match cs with
  | [] => none
  | _ =>
    let sr : Int × List Char :=
      match cs with
      | '+' :: r => (1, r)
      | '-' :: r => (-1, r)
      | r => (1, r)
    let low := sr.2.map Char.toLower
    if low == ['i', 'n', 'f'] || low == ['i', 'n', 'f', 'i', 'n', 'i', 't', 'y'] then
      some (if sr.1 == 1 then .inf else .negInf)
    else if low == ['n', 'a', 'n'] then some .nan
    else parseDecimal sr.1 sr.2

/-! ### Python date model -/

/-- Calendar date as stored in the `date` column (Python `datetime.date`). -/
structure PyDate where
  year : Nat
  month : Nat
  day : Nat
deriving DecidableEq, Repr

def isLeapYear (y : Nat) : Bool :=
  y % 4 == 0 && (y % 100 != 0 || y % 400 == 0)

def daysInMonth (y m : Nat) : Nat :=
  if m == 2 then (if isLeapYear y then 29 else 28)
  else if m == 4 || m == 6 || m == 9 || m == 11 then 30
  else 31

/-- Month field of `strptime %m`: the regex `1[0-2]|0[1-9]|[1-9]`, two
digits preferred. Returns the value and the unconsumed input. -/
def readMonth : List Char → Option (Nat × List Char)
  | c1 :: c2 :: rest =>
    if c1.isDigit ∧ c2.isDigit then
      let v := 10 * digitVal c1 + digitVal c2
      if 1 ≤ v ∧ v ≤ 12 then some (v, rest)
      else if 1 ≤ digitVal c1 then some (digitVal c1, c2 :: rest)
      else none
    else if c1.isDigit ∧ 1 ≤ digitVal c1 then some (digitVal c1, c2 :: rest)
    else none
  | [c1] =>
    if c1.isDigit ∧ 1 ≤ digitVal c1 then some (digitVal c1, []) else none
  | [] => none

/-- Day field of `strptime %d`: the regex
`3[01]|[12][0-9]|0[1-9]|[1-9]| [1-9]`, two digits preferred. -/
def readDay : List Char → Option (Nat × List Char)
  | ' ' :: c :: rest =>
    if c.isDigit ∧ 1 ≤ digitVal c then some (digitVal c, rest) else none
  | c1 :: c2 :: rest =>
    if c1.isDigit ∧ c2.isDigit then
      let v := 10 * digitVal c1 + digitVal c2
      if 1 ≤ v ∧ v ≤ 31 then some (v, rest)
      else if 1 ≤ digitVal c1 then some (digitVal c1, c2 :: rest)
      else none
    else if c1.isDigit ∧ 1 ≤ digitVal c1 then some (digitVal c1, c2 :: rest)
    else none
  | [c1] => if c1.isDigit ∧ 1 ≤ digitVal c1 then some (digitVal c1, []) else none
  | [] => none

/-- Model of `datetime.strptime(s, "%Y-%m-%d").date()` used at
src/app.py lines 117 and 145: exactly four year digits, dash, month,
dash, day, end of input; then the `datetime` range checks (year at least
1, day within the Gregorian month length). -/
def parseDate (s : String) : Option PyDate :=
  match s.toList with
  | y1 :: y2 :: y3 :: y4 :: '-' :: rest =>
    if y1.isDigit ∧ y2.isDigit ∧ y3.isDigit ∧ y4.isDigit then
      let y := digitsToNat [y1, y2, y3, y4]
      match readMonth rest with
      | some (m, r1) =>
        match r1 with
        | '-' :: r2 =>
          match readDay r2 with
          | some (d, []) =>
            if 1 ≤ y ∧ d ≤ daysInMonth y m then some ⟨y, m, d⟩ else none
          | _ => none
        | _ => none
      | none => none
    else none
  | _ => none

/-! ### Output formatting -/

/-- Round to the nearest integer, ties to even (the rounding used by
Python fixed-point formatting; ties are taken on the exact rational). -/
def roundHalfEven (q : ℚ) : Int :=
  let f := ratFloor q
  let r := ratSub q (ratOfInt f)
  if ratLt r (mkRat 1 2) then f
  else if ratLt (mkRat 1 2) r then f + 1
  else if f % 2 == 0 then f else f + 1

def twoDigitChars (n : Nat) : List Char :=
  [Nat.digitChar (n / 10), Nat.digitChar (n % 10)]

/-- Model of the Python format `f"\x7bx:.2f\x7d"` on a finite float:
integral digits, a point, then exactly two fractional digits. -/
def formatFixed2 (q : ℚ) : String :=
  let n := (roundHalfEven (ratMul (ratAbs q) (ratOfInt 100))).toNat
  let body := String.mk (natDigits (n / 100)) ++ "." ++ String.mk (twoDigitChars (n % 100))
  if ratLt q 0 then "-" ++ body else body

/-- Rendering of an amount by `f"\x7bex.amount:.2f\x7d"` at
src/app.py line 195; the non-finite values print as themselves. -/
def formatAmount : PyFloat → String
  | .finite q => formatFixed2 q
  | .inf => "inf"
  | .negInf => "-inf"
  | .nan => "nan"

def padDigits (w n : Nat) : List Char :=
  List.replicate (w - (natDigits n).length) '0' ++ natDigits n

/-- Model of `date.isoformat()` at src/app.py line 195: zero-padded
`YYYY-MM-DD`. -/
def formatDate (d : PyDate) : String :=
  String.mk (padDigits 4 d.year) ++ "-" ++
    String.mk (padDigits 2 d.month) ++ "-" ++ String.mk (padDigits 2 d.day)

/-! ### Data model (src/app.py lines 20-40) -/

/-- Expense row (src/app.py lines 33-40). The note column stores whatever
string the handlers write (they always write a string, possibly empty).
The timestamp is abstracted to a number supplied by the caller. -/
structure Expense where
  id : Nat
  user_id : Nat
  date : PyDate
  category : String
  amount : PyFloat
  note : String
  created_at : Nat
deriving DecidableEq, Repr

/-- User row (src/app.py lines 20-24). -/
structure User where
  id : Nat
  username : String
  email : String
  password_hash : String
deriving DecidableEq, Repr

/-- Form data of the add and edit views; the note field may be missing
(the handlers use `request.form.get("note", "")`). -/
structure ExpenseForm where
  date : String
  category : String
  amount : String
  note : Option String
deriving DecidableEq, Repr

/-- Observable outcome of a handler: a redirect with its flash notice,
a 404 page, or a rendering. -/
inductive Response where
  | redirectTo (target : String) (message : String) (category : String)
  | notFound
  | render (page : String)
deriving DecidableEq, Repr

/-! ### Expense ledger queries -/

def userExpenses (st : List Expense) (uid : Nat) : List Expense :=
  st.filter (fun e => e.user_id == uid)

/-- SQL `SUM` over a column: `NULL` (here `none`) on an empty set of
rows, otherwise the running float sum. -/
def sqlSum (l : List PyFloat) : Option PyFloat :=
  match l with
  | [] => none
  | a :: r => some (r.foldl pyAdd a)

/-- Total shown on the dashboard (src/app.py line 103):
`db.session.query(func.sum(Expense.amount)).filter_by(user_id=...)
.scalar() or 0.0`. The `or 0.0` replaces both `None` and a falsy `0.0`
result by `0.0`. -/
def dashboardTotal (st : List Expense) (uid : Nat) : PyFloat :=
  match sqlSum ((userExpenses st uid).map (fun e => e.amount)) with
  | none => .finite 0
  | some s => if s = .finite 0 then .finite 0 else s

/-- Arithmetic sum of a list of amounts, zero when empty. -/
def arithSum (l : List PyFloat) : PyFloat := l.foldl pyAdd (.finite 0)

/-- Category aggregation used by the dashboard (src/app.py lines
104-107) and the category-summary API (lines 205-207): SQL
`GROUP BY category` with `SUM(amount)`, i.e. one pair per distinct
category of the user, holding the sum over that group. SQL does not fix
the key order; this model lists the groups in `List.dedup` order, and no
claim depends on the order. -/
def categorySummary (st : List Expense) (uid : Nat) : List (String × PyFloat) :=
  (((userExpenses st uid).map (fun e => e.category)).dedup).map
    (fun c =>
      (c, arithSum (((userExpenses st uid).filter (fun e => e.category == c)).map
        (fun e => e.amount))))

/-! ### Request handlers -/

/-- Next autoincrement primary key. -/
def nextId (st : List Expense) : Nat :=
  st.foldl (fun m e => max m e.id) 0 + 1

/-- Add-expense handler, POST branch (src/app.py lines 113-132): parse
the date (redirect back to the form on failure), read the category
unvalidated, parse the amount (redirect back on failure), default the
note to the empty string, then insert and commit. -/
def addExpense (st : List Expense) (uid now : Nat) (f : ExpenseForm) :
    List Expense × Response :=
  match parseDate f.date with
  | none => (st, .redirectTo "add_expense" "Invalid date format" "danger")
  | some d =>
    match parseFloat f.amount with
    | none => (st, .redirectTo "add_expense" "Invalid amount" "danger")
    | some a =>
      (st ++ [⟨nextId st, uid, d, f.category, a, f.note.getD "", now⟩],
        .redirectTo "dashboard" "Expense added" "success")

def editUrl (eid : Nat) : String := "edit_expense/" ++ natStr eid

/-- Field update performed by a successful edit (src/app.py lines
145-155): date, category, amount and note are written; id, user_id and
created_at are not mentioned. -/
def applyEdit (e : Expense) (d : PyDate) (c : String) (a : PyFloat) (n : String) :
    Expense :=
  { e with date := d, category := c, amount := a, note := n }

/-- Edit-expense handler, POST branch (src/app.py lines 138-158):
`get_or_404` on the id, ownership check before anything else, then the
same two parses as the add handler. The source assigns parsed fields to
the ORM object one at a time, but only `db.session.commit()` persists
them; the validation-failure paths redirect without committing, and the
uncommitted attribute writes are discarded at request teardown, so those
paths leave the stored state unchanged. -/
def editExpense (st : List Expense) (uid eid : Nat) (f : ExpenseForm) :
    List Expense × Response :=
  match st.find? (fun e => e.id == eid) with
  | none => (st, .notFound)
  | some e =>
    if e.user_id ≠ uid then (st, .redirectTo "dashboard" "Not authorised" "danger")
    else
      match parseDate f.date with
      | none => (st, .redirectTo (editUrl eid) "Invalid date" "danger")
      | some d =>
        match parseFloat f.amount with
        | none => (st, .redirectTo (editUrl eid) "Invalid amount" "danger")
        | some a =>
          (st.map (fun x =>
              if x.id == eid then applyEdit x d f.category a (f.note.getD "") else x),
            .redirectTo "expenses" "Expense updated" "success")

/-- Delete-expense handler (src/app.py lines 164-172): `get_or_404`,
ownership check, then delete the row by primary key and commit. -/
def deleteExpense (st : List Expense) (uid eid : Nat) : List Expense × Response :=
  match st.find? (fun e => e.id == eid) with
  | none => (st, .notFound)
  | some e =>
    if e.user_id ≠ uid then (st, .redirectTo "expenses" "Not authorised" "danger")
    else (st.filter (fun x => !(x.id == eid)), .redirectTo "expenses" "Expense deleted" "info")

/-- Login handler, POST branch (src/app.py lines 78-87). The password
hash verifier (`werkzeug.check_password_hash`) is an external opaque
function, passed as a parameter. Returns the established session (the
logged-in user id, if any) and the response. -/
def login (verify : String → String → Bool) (users : List User)
    (emailInput pw : String) : Option Nat × Response :=
  match users.find? (fun u => u.email == pyStrip emailInput) with
  | some u =>
    if verify u.password_hash pw then
      (some u.id, .redirectTo "dashboard" "Logged in successfully." "success")
    else (none, .redirectTo "login" "Invalid credentials" "danger")
  | none => (none, .redirectTo "login" "Invalid credentials" "danger")

/-- Condition under which the login attempt fails: no user has the
submitted (stripped) email, or password verification fails. -/
def loginFails (verify : String → String → Bool) (users : List User)
    (emailInput pw : String) : Bool :=
  match users.find? (fun u => u.email == pyStrip emailInput) with
  | none => true
  | some u => ! verify u.password_hash pw

/-! ### CSV export (src/app.py lines 186-199) -/

/-- A csv.writer field needs quoting when it contains the delimiter, the
quote character or a line break (QUOTE_MINIMAL). -/
def needsQuoting (s : String) : Bool :=
  s.toList.any (fun c => c == ',' || c == '"' || c == '\n' || c == '\r')

def escapeQuotes (l : List Char) : List Char :=
  l.foldr (fun c acc => if c == '"' then '"' :: '"' :: acc else c :: acc) []

def csvField (s : String) : String :=
  if needsQuoting s then "\"" ++ String.mk (escapeQuotes s.toList) ++ "\"" else s

/-- One csv.writer record for an expense (src/app.py line 195); the
default line terminator of csv.writer is CRLF. -/
def csvRecord (e : Expense) : String :=
  String.intercalate ","
    [csvField (natStr e.id), csvField (formatDate e.date), csvField e.category,
      csvField (formatAmount e.amount), csvField e.note] ++ "\r\n"

def dateKey (d : PyDate) : Nat := (d.year * 13 + d.month) * 32 + d.day

/-- Order produced by `ORDER BY date DESC`: a row comes before another
when its date is not smaller. -/
def expDateGe (a b : Expense) : Prop := dateKey b.date ≤ dateKey a.date

instance : DecidableRel expDateGe := fun a b => Nat.decLe (dateKey b.date) (dateKey a.date)

instance : IsTotal Expense expDateGe :=
  ⟨fun a b => Nat.le_total (dateKey b.date) (dateKey a.date)⟩

instance : IsTrans Expense expDateGe :=
  ⟨fun _ _ _ hab hbc => Nat.le_trans hbc hab⟩

/-- Date-descending listing of the query at src/app.py line 193. SQL
fixes only the date order; the model uses a stable sort. -/
def sortByDateDesc (l : List Expense) : List Expense :=
  List.insertionSort expDateGe l

def csvHeader : String := "id,date,category,amount,note\r\n"

/-- CSV document produced by the export route (src/app.py lines
186-199): header row, then one record per expense of the current user,
ordered by date descending. -/
def exportCSV (st : List Expense) (uid : Nat) : String :=
  csvHeader ++ String.join ((sortByDateDesc (userExpenses st uid)).map csvRecord)

/-- Shape check for a fixed-point rendering with exactly two decimal
places: the string ends in a point followed by two digit characters. -/
def twoDecimalsB (s : String) : Bool :=
  match s.toList.reverse with
  | d1 :: d2 :: '.' :: _ => d2.isDigit && d1.isDigit
  | _ => false

/-! ### Concrete fixtures used by witnesses and counterexamples -/

def exA : Expense := ⟨5, 1, ⟨2025, 1, 15⟩, "Food", .finite 10, "lunch", 7⟩

def exB : Expense := ⟨6, 2, ⟨2025, 2, 20⟩, "Rent", .finite (mkRat 25 2), "", 9⟩

def formW : ExpenseForm := ⟨"2026-03-04", "Travel", "12.5", some "trip"⟩

/-- Ledger reached by adding Food 10 and Food 20 through the add handler. -/
def demoFood : List Expense :=
  (addExpense ((addExpense [] 1 0 ⟨"2025-01-15", "Food", "10", none⟩).1) 1 1
    ⟨"2025-01-16", "Food", "20", none⟩).1

/-! ### Helper lemmas -/

theorem pyAdd_zero_left (x : PyFloat) : pyAdd (.finite 0) x = x := by
  cases x with
  | finite q =>
    show PyFloat.finite (ratAdd 0 q) = PyFloat.finite q
    unfold ratAdd
    norm_num [Rat.mkRat_self]
  | inf => rfl
  | negInf => rfl
  | nan => rfl

/-! ### Claim C1 -/

/-- C1: for all distinct users A and B and every expense owned by B, an
edit or delete request by A against that expense produces the
authorization redirect (away from the form, with the uniform notice)
and returns the ledger unchanged, so every field of every stored
expense, in particular the target, keeps its prior value. -/
theorem c1_foreign_edit_delete_rejected (st : List Expense) (A B eid : Nat)
    (e : Expense) (f : ExpenseForm)
    (hfind : st.find? (fun x => x.id == eid) = some e)
    (hB : e.user_id = B) (hAB : A ≠ B) :
    editExpense st A eid f = (st, .redirectTo "dashboard" "Not authorised" "danger") ∧
    deleteExpense st A eid = (st, .redirectTo "expenses" "Not authorised" "danger") := by
  have hne : e.user_id ≠ A := by rw [hB]; exact fun h => hAB h.symm
  constructor
  · unfold editExpense; rw [hfind]; simp [hne]
  · unfold deleteExpense; rw [hfind]; simp [hne]

/-- Witness for C1: user 1 attacks the expense with id 6 owned by
user 2; both requests redirect away and the ledger is unchanged. -/
theorem c1_foreign_edit_delete_rejected_witness :
    editExpense [exB] 1 6 formW = ([exB], .redirectTo "dashboard" "Not authorised" "danger") ∧
    deleteExpense [exB] 1 6 = ([exB], .redirectTo "expenses" "Not authorised" "danger") :=
  c1_foreign_edit_delete_rejected [exB] 1 2 6 exB formW (by decide) (by decide) (by decide)

/-! ### Claim C2 -/

/-- C2: the dashboard total-aggregation query returns exactly the
arithmetic sum of the amount fields of the expenses owned by the user
(the `or 0.0` coalescing never changes a non-empty sum, because a falsy
float result is already zero), and returns 0 when the user owns no
expenses. -/
theorem c2_dashboard_total (st : List Expense) (uid : Nat) :
    dashboardTotal st uid = arithSum ((userExpenses st uid).map (fun e => e.amount)) ∧
    (userExpenses st uid = [] → dashboardTotal st uid = .finite 0) := by
  constructor
  · unfold dashboardTotal arithSum sqlSum
    cases h : (userExpenses st uid).map (fun e => e.amount) with
    | nil => rfl
    | cons a r =>
      simp only [List.foldl_cons, pyAdd_zero_left]
      by_cases hz : r.foldl pyAdd a = PyFloat.finite 0
      · rw [if_pos hz, hz]
      · rw [if_neg hz]
  · intro h
    unfold dashboardTotal
    rw [h]
    rfl

/-- Witness for C2: user 1 owns nothing in the ledger holding only an
expense of user 2, and the dashboard total is 0. -/
theorem c2_dashboard_total_witness : dashboardTotal [exB] 1 = .finite 0 :=
  (c2_dashboard_total [exB] 1).2 (by decide)

/-! ### Claim C3 -/

/-- C3: the category summary maps exactly the distinct categories of the
current user to the sums of that user's amounts in each category: its
key list is the deduplicated category list, and a pair belongs to it
precisely when its key is a category of the user and its value is the
per-category sum. In particular, after adding Food 10 and Food 20
through the add handler, the summary is Food maps-to 30. -/
theorem c3_category_summary (st : List Expense) (uid : Nat) (c : String) (v : PyFloat) :
    ((categorySummary st uid).map Prod.fst =
      ((userExpenses st uid).map (fun e => e.category)).dedup) ∧
    ((c, v) ∈ categorySummary st uid ↔
      c ∈ (userExpenses st uid).map (fun e => e.category) ∧
        v = arithSum (((userExpenses st uid).filter (fun e => e.category == c)).map
          (fun e => e.amount))) ∧
    categorySummary demoFood 1 = [("Food", .finite 30)] := by
  refine ⟨?_, ?_, by decide⟩
  · unfold categorySummary
    rw [List.map_map]
    exact List.map_id' _
  · unfold categorySummary
    constructor
    · intro hmem
      rcases List.mem_map.mp hmem with ⟨c0, hc0, heq⟩
      rcases Prod.mk.injEq .. ▸ heq with ⟨h1, h2⟩
      subst h1
      exact ⟨List.mem_dedup.mp hc0, h2.symm⟩
    · rintro ⟨hc, hv⟩
      exact List.mem_map.mpr ⟨c, List.mem_dedup.mpr hc, by rw [hv]⟩

/-! ### Claim C4 (corrected) -/

/-- Counterexample to C4 as stated: the amount string `inf` does not
denote a finite number (it parses to the infinite float), yet the add
request succeeds and inserts a row instead of failing validation. -/
theorem c4_counterexample :
    (addExpense [] 1 0 ⟨"2025-01-15", "Food", "inf", none⟩).1 =
      [⟨1, 1, ⟨2025, 1, 15⟩, "Food", .inf, "", 0⟩] ∧
    (addExpense [] 1 0 ⟨"2025-01-15", "Food", "inf", none⟩).2 =
      .redirectTo "dashboard" "Expense added" "success" ∧
    parseFloat "inf" = some PyFloat.inf := by decide

/-- C4 (amended): the add handler fails with a validation redirect (and
an unchanged ledger) exactly when the date fails `strptime %Y-%m-%d`
parsing or the amount fails Python `float()` conversion — a conversion
that also accepts the non-finite literals `inf` and `nan`, which are
then inserted; on success exactly one new expense owned by the current
user is appended. -/
theorem c4_add_validation (st : List Expense) (uid now : Nat) (f : ExpenseForm) :
    (parseDate f.date = none →
      addExpense st uid now f = (st, .redirectTo "add_expense" "Invalid date format" "danger")) ∧
    (∀ d : PyDate, parseDate f.date = some d → parseFloat f.amount = none →
      addExpense st uid now f = (st, .redirectTo "add_expense" "Invalid amount" "danger")) ∧
    (∀ (d : PyDate) (a : PyFloat), parseDate f.date = some d → parseFloat f.amount = some a →
      addExpense st uid now f =
        (st ++ [⟨nextId st, uid, d, f.category, a, f.note.getD "", now⟩],
          .redirectTo "dashboard" "Expense added" "success")) := by
  refine ⟨?_, ?_, ?_⟩
  · intro h; unfold addExpense; rw [h]
  · intro d hd ha; unfold addExpense; rw [hd, ha]
  · intro d a hd ha; unfold addExpense; rw [hd, ha]

/-- Witness for C4: a malformed date is rejected with no insertion and a
well-formed request inserts exactly one owned row. -/
theorem c4_add_validation_witness :
    addExpense [] 1 0 ⟨"not-a-date", "Food", "10", none⟩ =
      ([], .redirectTo "add_expense" "Invalid date format" "danger") ∧
    addExpense [] 1 0 ⟨"2025-01-15", "Food", "10", none⟩ =
      ([⟨1, 1, ⟨2025, 1, 15⟩, "Food", .finite 10, "", 0⟩],
        .redirectTo "dashboard" "Expense added" "success") :=
  ⟨(c4_add_validation [] 1 0 ⟨"not-a-date", "Food", "10", none⟩).1 (by decide),
    (c4_add_validation [] 1 0 ⟨"2025-01-15", "Food", "10", none⟩).2.2
      ⟨2025, 1, 15⟩ (.finite 10) (by decide) (by decide)⟩

/-! ### Claim C5 -/

/-- C5: when an edit request by the owner fails validation — the date
does not parse, or the date parses and then the amount does not — the
handler recovers with a redirect back to the edit form and the whole
ledger, in particular every field of the target expense, is exactly the
state before the request. -/
theorem c5_edit_validation_atomic (st : List Expense) (uid eid : Nat) (e : Expense)
    (f : ExpenseForm)
    (hfind : st.find? (fun x => x.id == eid) = some e)
    (hown : e.user_id = uid) :
    (parseDate f.date = none →
      editExpense st uid eid f = (st, .redirectTo (editUrl eid) "Invalid date" "danger")) ∧
    (∀ d : PyDate, parseDate f.date = some d → parseFloat f.amount = none →
      editExpense st uid eid f = (st, .redirectTo (editUrl eid) "Invalid amount" "danger")) := by
  have hok : ¬ e.user_id ≠ uid := by rw [hown]; exact fun h => h rfl
  constructor
  · intro h; unfold editExpense; rw [hfind]; simp only [if_neg hok]; rw [h]
  · intro d hd ha; unfold editExpense; rw [hfind]; simp only [if_neg hok]; rw [hd, ha]

/-- Witness for C5: both validation failures on an owned expense leave
the ledger unchanged and redirect to the edit form. -/
theorem c5_edit_validation_atomic_witness :
    editExpense [exA] 1 5 ⟨"nope", "X", "1", none⟩ =
      ([exA], .redirectTo (editUrl 5) "Invalid date" "danger") ∧
    editExpense [exA] 1 5 ⟨"2025-01-15", "X", "zzz", none⟩ =
      ([exA], .redirectTo (editUrl 5) "Invalid amount" "danger") :=
  ⟨(c5_edit_validation_atomic [exA] 1 5 exA ⟨"nope", "X", "1", none⟩
      (by decide) (by decide)).1 (by decide),
    (c5_edit_validation_atomic [exA] 1 5 exA ⟨"2025-01-15", "X", "zzz", none⟩
      (by decide) (by decide)).2 ⟨2025, 1, 15⟩ (by decide) (by decide)⟩

/-! ### Claim C6 -/

/-- C6: a successful owner edit redirects to the expense list and maps
the ledger position-wise: every row keeps its id, user_id and
created_at; rows whose id differs from the target are completely
unchanged; the target row carries exactly the submitted date, category,
amount and note. -/
theorem c6_edit_frame (st : List Expense) (uid eid : Nat) (e : Expense) (f : ExpenseForm)
    (d : PyDate) (a : PyFloat)
    (hfind : st.find? (fun x => x.id == eid) = some e)
    (hown : e.user_id = uid)
    (hd : parseDate f.date = some d) (ha : parseFloat f.amount = some a) :
    (editExpense st uid eid f).2 = .redirectTo "expenses" "Expense updated" "success" ∧
    (editExpense st uid eid f).1.length = st.length ∧
    (∀ (i : Nat) (h1 : i < st.length) (h2 : i < (editExpense st uid eid f).1.length),
      ((editExpense st uid eid f).1.get ⟨i, h2⟩).id = (st.get ⟨i, h1⟩).id ∧
      ((editExpense st uid eid f).1.get ⟨i, h2⟩).user_id = (st.get ⟨i, h1⟩).user_id ∧
      ((editExpense st uid eid f).1.get ⟨i, h2⟩).created_at = (st.get ⟨i, h1⟩).created_at ∧
      ((st.get ⟨i, h1⟩).id ≠ eid →
        (editExpense st uid eid f).1.get ⟨i, h2⟩ = st.get ⟨i, h1⟩) ∧
      ((st.get ⟨i, h1⟩).id = eid →
        (editExpense st uid eid f).1.get ⟨i, h2⟩ =
          applyEdit (st.get ⟨i, h1⟩) d f.category a (f.note.getD ""))) := by
  have hok : ¬ e.user_id ≠ uid := by rw [hown]; exact fun h => h rfl
  have heq : editExpense st uid eid f =
      (st.map (fun x => if x.id == eid then applyEdit x d f.category a (f.note.getD "") else x),
        .redirectTo "expenses" "Expense updated" "success") := by
    unfold editExpense; rw [hfind]; simp only [if_neg hok]; rw [hd, ha]
  rw [heq]
  refine ⟨rfl, List.length_map .., ?_⟩
  intro i h1 h2
  simp only [List.get_eq_getElem, List.getElem_map]
  by_cases hx : (st.get ⟨i, h1⟩).id = eid
  · simp only [List.get_eq_getElem] at hx
    have hb : (st[i].id == eid) = true := beq_iff_eq.mpr hx
    rw [if_pos hb]
    exact ⟨rfl, rfl, rfl, fun hne => absurd hx hne, fun _ => rfl⟩
  · simp only [List.get_eq_getElem] at hx
    have hb : (st[i].id == eid) = false := beq_eq_false_iff_ne.mpr hx
    rw [if_neg (ne_true_of_eq_false hb)]
    exact ⟨rfl, rfl, rfl, fun _ => rfl, fun he => absurd he hx⟩

/-- Witness for C6: a successful edit of the expense with id 5 keeps the
created_at values of every row. -/
theorem c6_edit_frame_witness :
    (editExpense [exA, exB] 1 5 formW).2 = .redirectTo "expenses" "Expense updated" "success" ∧
    (editExpense [exA, exB] 1 5 formW).1.map (fun x => x.created_at) = [7, 9] := by
  have h := c6_edit_frame [exA, exB] 1 5 exA formW ⟨2026, 3, 4⟩ (.finite (mkRat 25 2))
    (by decide) (by decide) (by decide) (by decide)
  exact ⟨h.1, by decide⟩

/-! ### Claim C7 -/

/-- C7: any two failing login attempts — whether no user carries the
submitted email or the password verifier rejects — produce identical
observables: no session is established, the same redirect target and the
same uniform notice. -/
theorem c7_uniform_login_failure (verify : String → String → Bool) (users : List User)
    (e1 p1 e2 p2 : String)
    (h1 : loginFails verify users e1 p1 = true)
    (h2 : loginFails verify users e2 p2 = true) :
    login verify users e1 p1 = login verify users e2 p2 ∧
    login verify users e1 p1 = (none, .redirectTo "login" "Invalid credentials" "danger") := by
  have key : ∀ e p, loginFails verify users e p = true →
      login verify users e p = (none, .redirectTo "login" "Invalid credentials" "danger") := by
    intro e p h
    unfold login
    unfold loginFails at h
    cases hf : users.find? (fun u => u.email == pyStrip e) with
    | none => rfl
    | some u =>
      rw [hf] at h
      have hred : (! verify u.password_hash p) = true := h
      have hv : verify u.password_hash p = false := by
        cases hveq : verify u.password_hash p
        · rfl
        · rw [hveq] at hred; exact absurd hred (by decide)
      show (if verify u.password_hash p = true then
          (some u.id, Response.redirectTo "dashboard" "Logged in successfully." "success")
        else (none, Response.redirectTo "login" "Invalid credentials" "danger")) =
        (none, Response.redirectTo "login" "Invalid credentials" "danger")
      rw [hv]
      rfl
  exact ⟨(key e1 p1 h1).trans (key e2 p2 h2).symm, key e1 p1 h1⟩

/-- Concrete verifier used only by the login witness: the stored hash
verifies exactly the equal string. -/
def vfEq : String → String → Bool := fun h p => h == p

def userAlice : User := ⟨1, "alice", "alice@x.com", "pw"⟩

/-- Witness for C7: one attempt with the right email and a wrong
password and one with an unknown email produce identical responses. -/
theorem c7_uniform_login_failure_witness :
    login vfEq [userAlice] "alice@x.com" "wrong" = login vfEq [userAlice] "bob@x.com" "pw" ∧
    login vfEq [userAlice] "alice@x.com" "wrong" =
      (none, .redirectTo "login" "Invalid credentials" "danger") :=
  c7_uniform_login_failure vfEq [userAlice] "alice@x.com" "wrong" "bob@x.com" "pw"
    (by decide) (by decide)

/-! ### Digit lemmas for the export format -/

theorem natDigitsF_fuel (n : Nat) : ∀ f1 f2, n < f1 → n < f2 →
    natDigitsF f1 n = natDigitsF f2 n := by
  induction n using Nat.strong_induction_on with
  | _ n ih =>
    intro f1 f2 hf1 hf2
    match f1, f2 with
    | a + 1, b + 1 =>
      show natDigitsF (a + 1) n = natDigitsF (b + 1) n
      unfold natDigitsF
      by_cases h : n < 10
      · rw [if_pos h, if_pos h]
      · rw [if_neg h, if_neg h]
        have hlt : n / 10 < n := Nat.div_lt_self (by omega) (by omega)
        have ha : n / 10 < a := by omega
        have hb : n / 10 < b := by omega
        rw [ih (n / 10) hlt a b ha hb]

/-- Unfolding equation of `natDigits`. -/
theorem natDigits_eq (n : Nat) :
    natDigits n =
      if n < 10 then [Nat.digitChar n]
      else natDigits (n / 10) ++ [Nat.digitChar (n % 10)] := by
  by_cases h : n < 10
  · rw [if_pos h]
    show natDigitsF (n + 1) n = _
    unfold natDigitsF
    rw [if_pos h]
  · rw [if_neg h]
    show natDigitsF (n + 1) n = _
    unfold natDigitsF
    rw [if_neg h]
    have hlt : n / 10 < n := Nat.div_lt_self (by omega) (by omega)
    rw [natDigitsF_fuel (n / 10) n (n / 10 + 1) (by omega) (by omega)]
    rfl

theorem natDigits_length_le (n : Nat) : ∀ k, n < 10 ^ k → 0 < k →
    (natDigits n).length ≤ k := by
  induction n using Nat.strong_induction_on with
  | _ n ih =>
    intro k hn hk
    rw [natDigits_eq]
    by_cases h : n < 10
    · rw [if_pos h]
      simpa using hk
    · rw [if_neg h]
      have hk2 : 2 ≤ k := by
        by_contra hcon
        have hk1 : k = 1 := by omega
        rw [hk1, pow_one] at hn
        omega
      have hpow : 10 ^ k = 10 ^ (k - 1) * 10 := by
        rw [← pow_succ]
        congr 1
        omega
      have hdiv : n / 10 < 10 ^ (k - 1) := by
        rw [Nat.div_lt_iff_lt_mul (by omega)]
        omega
      have hlt : n / 10 < n := Nat.div_lt_self (by omega) (by omega)
      have hrec := ih (n / 10) hlt (k - 1) hdiv (by omega)
      rw [List.length_append]
      simp only [List.length_singleton]
      omega

theorem digitChar_isDigit (n : Nat) (h : n < 10) : (Nat.digitChar n).isDigit = true := by
  interval_cases n <;> decide

theorem natDigits_all_digits (n : Nat) : ∀ c ∈ natDigits n, c.isDigit = true := by
  induction n using Nat.strong_induction_on with
  | _ n ih =>
    intro c hc
    rw [natDigits_eq] at hc
    by_cases h : n < 10
    · rw [if_pos h] at hc
      rcases List.mem_singleton.mp hc with rfl
      exact digitChar_isDigit n h
    · rw [if_neg h] at hc
      have hlt : n / 10 < n := Nat.div_lt_self (by omega) (by omega)
      rcases List.mem_append.mp hc with h1 | h2
      · exact ih (n / 10) hlt c h1
      · rcases List.mem_singleton.mp h2 with rfl
        exact digitChar_isDigit (n % 10) (Nat.mod_lt n (by omega))

theorem padDigits_length (w n : Nat) (h : (natDigits n).length ≤ w) :
    (padDigits w n).length = w := by
  unfold padDigits
  rw [List.length_append, List.length_replicate]
  omega

/-- The date rendering has the `YYYY-MM-DD` shape for in-range fields:
ten characters, with the two separators in place and digits elsewhere. -/
theorem formatDate_shape (dte : PyDate) (hy : dte.year ≤ 9999) (hm : dte.month ≤ 99)
    (hd : dte.day ≤ 99) :
    (formatDate dte).length = 10 ∧
    (formatDate dte).data =
      padDigits 4 dte.year ++ '-' :: (padDigits 2 dte.month ++ '-' :: padDigits 2 dte.day) := by
  have hy4 : (natDigits dte.year).length ≤ 4 :=
    natDigits_length_le dte.year 4 (by omega) (by omega)
  have hm2 : (natDigits dte.month).length ≤ 2 :=
    natDigits_length_le dte.month 2 (by omega) (by omega)
  have hd2 : (natDigits dte.day).length ≤ 2 :=
    natDigits_length_le dte.day 2 (by omega) (by omega)
  constructor
  · show (formatDate dte).data.length = 10
    unfold formatDate
    rw [String.data_append, String.data_append, String.data_append, String.data_append]
    simp only [List.length_append]
    show (padDigits 4 dte.year).length + ['-'].length + (padDigits 2 dte.month).length +
      ['-'].length + (padDigits 2 dte.day).length = 10
    rw [padDigits_length 4 dte.year hy4, padDigits_length 2 dte.month hm2,
      padDigits_length 2 dte.day hd2]
    rfl
  · unfold formatDate
    rw [String.data_append, String.data_append, String.data_append, String.data_append]
    show padDigits 4 dte.year ++ ['-'] ++ padDigits 2 dte.month ++ ['-'] ++
      padDigits 2 dte.day = _
    simp [List.append_assoc]

theorem twoDecimalsB_of_decomp (s : String) (c1 c2 : Char) (t : List Char)
    (h : s.data.reverse = c2 :: c1 :: '.' :: t)
    (h1 : c1.isDigit = true) (h2 : c2.isDigit = true) :
    twoDecimalsB s = true := by
  unfold twoDecimalsB
  show (match s.data.reverse with
    | d1 :: d2 :: '.' :: _ => d2.isDigit && d1.isDigit
    | _ => false) = true
  rw [h]
  simp [h1, h2]

/-- Every finite amount is rendered with exactly two decimal places. -/
theorem formatFixed2_twoDecimals (q : ℚ) : twoDecimalsB (formatFixed2 q) = true := by
  unfold formatFixed2
  have hd1 : (Nat.digitChar
      ((roundHalfEven (ratMul (ratAbs q) (ratOfInt 100))).toNat % 100 / 10)).isDigit = true :=
    digitChar_isDigit _ (by omega)
  have hd2 : (Nat.digitChar
      ((roundHalfEven (ratMul (ratAbs q) (ratOfInt 100))).toNat % 100 % 10)).isDigit = true :=
    digitChar_isDigit _ (Nat.mod_lt _ (by omega))
  by_cases hneg : ratLt q 0
  · rw [if_pos hneg]
    refine twoDecimalsB_of_decomp _ _ _
      ((natDigits ((roundHalfEven (ratMul (ratAbs q) (ratOfInt 100))).toNat / 100)).reverse
        ++ ['-'])
      ?_ hd1 hd2
    rw [String.data_append, String.data_append, String.data_append]
    simp [twoDigitChars, List.reverse_append]
  · rw [if_neg hneg]
    refine twoDecimalsB_of_decomp _ _ _
      ((natDigits ((roundHalfEven (ratMul (ratAbs q) (ratOfInt 100))).toNat / 100)).reverse)
      ?_ hd1 hd2
    rw [String.data_append, String.data_append]
    simp [twoDigitChars, List.reverse_append]

/-! ### Claim C8 (corrected) -/

def exInf : Expense := ⟨1, 1, ⟨2025, 1, 15⟩, "Food", .inf, "", 0⟩

/-- Counterexample to C8 as stated: a ledger can hold an expense whose
amount is the infinite float (the add handler accepts the amount string
`inf`), and its exported amount field renders as `inf`, which has no
two-decimal shape. -/
theorem c8_counterexample :
    exportCSV [exInf] 1 = "id,date,category,amount,note\r\n1,2025-01-15,Food,inf,\r\n" ∧
    formatAmount exInf.amount = "inf" ∧
    twoDecimalsB (formatAmount exInf.amount) = false := by decide

/-- C8 (amended): the export document is the header row followed by one
csv record per expense of the exporting user (the records are the image
of the user's rows, a 1:1 correspondence up to the date-descending
permutation), the listed rows are a permutation of the user's rows in
date-descending order, dates render as zero-padded `YYYY-MM-DD` (ten
characters for in-range fields), and every finite amount renders with
exactly two decimal places — non-finite amounts, which the handlers
accept, render as `inf`, `-inf` or `nan`. -/
theorem c8_export_csv (st : List Expense) (uid : Nat) :
    exportCSV st uid =
      csvHeader ++ String.join ((sortByDateDesc (userExpenses st uid)).map csvRecord) ∧
    (sortByDateDesc (userExpenses st uid)).Perm (userExpenses st uid) ∧
    List.Pairwise expDateGe (sortByDateDesc (userExpenses st uid)) ∧
    (∀ q : ℚ, twoDecimalsB (formatFixed2 q) = true) ∧
    (∀ dte : PyDate, dte.year ≤ 9999 → dte.month ≤ 99 → dte.day ≤ 99 →
      (formatDate dte).length = 10) := by
  refine ⟨rfl, List.perm_insertionSort expDateGe _, ?_, formatFixed2_twoDecimals, ?_⟩
  · exact List.sorted_insertionSort expDateGe _
  · intro dte hy hm hd
    exact (formatDate_shape dte hy hm hd).1

/-- Witness for C8: the sort permutes the concrete user rows, a finite
amount renders with two decimals and a concrete date renders with ten
characters. -/
theorem c8_export_csv_witness :
    (sortByDateDesc (userExpenses [exA, exB] 1)).Perm (userExpenses [exA, exB] 1) ∧
    twoDecimalsB (formatFixed2 (mkRat 25 2)) = true ∧
    (formatDate ⟨2025, 1, 15⟩).length = 10 := by
  have h := c8_export_csv [exA, exB] 1
  exact ⟨h.2.1, h.2.2.2.1 (mkRat 25 2),
    h.2.2.2.2 ⟨2025, 1, 15⟩ (by decide) (by decide) (by decide)⟩

/-! ### Claim C9 (corrected) -/

/-- Category of 51 letters. -/
def longCat : String := "aaaaaaaaaaaaaaaaaaaaaaaaaaaaaaaaaaaaaaaaaaaaaaaaaaa"

/-- Counterexample to C9 as stated: an add request whose category is 51
characters long succeeds and stores that category unchanged — no
handler rejects it, so the claimed invariant fails. -/
theorem c9_counterexample :
    ((addExpense [] 1 0 ⟨"2025-01-15", longCat, "10", none⟩).1.map (fun e => e.category)) =
      [longCat] ∧
    (addExpense [] 1 0 ⟨"2025-01-15", longCat, "10", none⟩).2 =
      .redirectTo "dashboard" "Expense added" "success" ∧
    longCat.length = 51 := by decide

/-- C9 (amended): the handlers perform no category validation at all:
on every successful add or owner edit the submitted category string is
stored verbatim, whatever its length or content (the 50-character column
annotation is not enforced at the application layer). -/
theorem c9_category_stored_verbatim (st : List Expense) (uid now : Nat) (f : ExpenseForm)
    (d : PyDate) (a : PyFloat)
    (hd : parseDate f.date = some d) (ha : parseFloat f.amount = some a) :
    ((addExpense st uid now f).1.map (fun e => e.category)) =
      (st.map (fun e => e.category)) ++ [f.category] ∧
    (∀ (eid : Nat) (e : Expense), st.find? (fun x => x.id == eid) = some e →
      e.user_id = uid →
      ((editExpense st uid eid f).1.map (fun e => e.category)) =
        st.map (fun x => if x.id == eid then f.category else x.category)) := by
  constructor
  · unfold addExpense
    rw [hd, ha]
    simp
  · intro eid e hfind hown
    have hok : ¬ e.user_id ≠ uid := by rw [hown]; exact fun hh => hh rfl
    unfold editExpense
    rw [hfind]
    simp only [if_neg hok]
    rw [hd, ha]
    show (st.map (fun x =>
        if x.id == eid then applyEdit x d f.category a (f.note.getD "") else x)).map
      (fun e => e.category) = _
    rw [List.map_map]
    congr 1
    funext x
    cases hxe : x.id == eid
    · simp [Function.comp, hxe]
    · simp [Function.comp, hxe, applyEdit]

/-- Witness for C9: the 51-character category is stored verbatim. -/
theorem c9_category_stored_verbatim_witness :
    ((addExpense [] 1 0 ⟨"2025-01-15", longCat, "10", none⟩).1.map (fun e => e.category)) =
      [longCat] ∧ longCat.length = 51 := by
  have h := c9_category_stored_verbatim [] 1 0 ⟨"2025-01-15", longCat, "10", none⟩
    ⟨2025, 1, 15⟩ (.finite 10) (by decide) (by decide)
  exact ⟨h.1, by decide⟩

/-! ### Claim C10 -/

/-- C10: when the add or edit form omits the note field, the stored note
is the empty string — the handlers default the missing value with
`request.form.get("note", "")` — so an expense note written by any
handler is always a string, never absent. -/
theorem c10_note_defaults_to_empty_string (st : List Expense) (uid now : Nat)
    (dstr cstr astr : String) (d : PyDate) (a : PyFloat)
    (hd : parseDate dstr = some d) (ha : parseFloat astr = some a) :
    (addExpense st uid now ⟨dstr, cstr, astr, none⟩).1 =
      st ++ [⟨nextId st, uid, d, cstr, a, "", now⟩] ∧
    (∀ (eid : Nat) (e : Expense), st.find? (fun x => x.id == eid) = some e →
      e.user_id = uid →
      ((editExpense st uid eid ⟨dstr, cstr, astr, none⟩).1.map (fun x => x.note)) =
        st.map (fun x => if x.id == eid then "" else x.note)) := by
  constructor
  · unfold addExpense
    rw [hd, ha]
    rfl
  · intro eid e hfind hown
    have hok : ¬ e.user_id ≠ uid := by rw [hown]; exact fun hh => hh rfl
    unfold editExpense
    rw [hfind]
    simp only [if_neg hok]
    rw [hd, ha]
    show (st.map (fun x =>
        if x.id == eid then applyEdit x d cstr a ((none : Option String).getD "") else x)).map
      (fun x => x.note) = _
    rw [List.map_map]
    congr 1
    funext x
    cases hxe : x.id == eid
    · simp [Function.comp, hxe]
    · simp [Function.comp, hxe, applyEdit]

/-- Witness for C10: adding with no note stores the empty string. -/
theorem c10_note_defaults_to_empty_string_witness :
    (addExpense [] 1 0 ⟨"2025-01-15", "Food", "10", none⟩).1 =
      [⟨1, 1, ⟨2025, 1, 15⟩, "Food", .finite 10, "", 0⟩] :=
  (c10_note_defaults_to_empty_string [] 1 0 "2025-01-15" "Food" "10"
    ⟨2025, 1, 15⟩ (.finite 10) (by decide) (by decide)).1

end BudgetApp
